import Mathlib

/-!
Verification of the `turnip` feed service (a Go program).

Shallow embedding conventions:
* Go strings are modelled as Lean `String` where only character content
  matters, and as `List Nat` (their UTF-8 bytes) where the Go code measures
  byte lengths (`len`, chunking).  All string constants involved are ASCII, so
  the two views agree on them.
* Go `error` values are modelled as `String` (the formatted message); fallible
  functions return `Except String α`.
* External effects (running `yt-dlp`/`vot-cli`, HTTP requests, the BoltDB
  store, the Telegram transport) are modelled as oracle parameters: a function
  or record supplying the outcome of each external call.  The control flow
  around the oracles is translated from the source.
* Go `int`/`int64` are modelled as `Int` (no arithmetic here approaches 2^63).
-/

namespace Turnip

/-- Go `strings.Contains(hay, pat)` on character lists: `pat` occurs as a
contiguous substring of `hay` (true for the empty pattern). -/
def containsSub (pat : List Char) : List Char → Bool
  | [] => pat.isEmpty
  | c :: rest => pat.isPrefixOf (c :: rest) || containsSub pat rest

/-- Go `strings.Contains` on strings. -/
def strContains (hay pat : String) : Bool :=
  containsSub pat.toList hay.toList

/-- From `app/youtube/feed/downloader.go`: the fixed list of credential-expiry
phrase markers scanned for by `IsCookieError`. -/
def cookieErrorMarkers : List String :=
  [ "cookies are no longer valid"
  , "cookies have expired"
  , "Please sign in"
  , "Sign in to confirm your age"
  , "Sign in to confirm you" ]

/-- `IsCookieError` (downloader.go): does the error message contain one of the
fixed credential-expiry markers? -/
def IsCookieError (errStr : String) : Bool :=
  cookieErrorMarkers.any (fun m => strContains errStr m)

/-- The shared retry shape of `Downloader.Get`, `Downloader.GetInfo`,
`VoiceoverService.GetDubbedAudioTracks` and
`VoiceoverService.DownloadDubbedTrack`: call the inner operation once with
credentials; if it fails, the credentials file is configured and the error
matches the cookie markers, call it once more without credentials and return
that second result.  The returned list records the `useCookies` flag of every
inner call made, in order. -/
def credRetryTrace {α : Type} (cookiesFile : String)
    (inner : Bool → Except String α) : Except String α × List Bool :=
  match inner true with
  | .ok a => (.ok a, [true])
  | .error e =>
    if cookiesFile ≠ "" ∧ IsCookieError e = true then
      (inner false, [true, false])
    else
      (.error e, [true])

/-- `Downloader` (downloader.go).  The two `io.Writer` log sinks are not
modelled. -/
structure Downloader where
  ytTemplate : String
  destination : String
  cookiesFile : String

/-- `VideoInfo` (downloader.go), metadata from `yt-dlp --dump-json`.
`Duration` is `float64` in Go; the program only ever uses `int(info.Duration)`
(truncated seconds), which is what this field holds. -/
structure VideoInfo where
  ID : String
  Title : String
  Description : String
  Uploader : String
  ChannelID : String
  ChannelURL : String
  Duration : Int
  Thumbnail : String
  UploadDate : String
  WebpageURL : String
deriving DecidableEq

/-- `Downloader.Get` (downloader.go): runs the download command
(`d.get ctx id fname useCookies`, modelled by the oracle `get`) with
credentials, retrying once without them on a cookie error. -/
def Downloader.Get (d : Downloader) (get : Bool → Except String String) :
    Except String String × List Bool :=
  credRetryTrace d.cookiesFile get

/-- `Downloader.GetInfo` (downloader.go): runs `yt-dlp --dump-json`
(modelled by the oracle `getInfo`) with credentials, retrying once without
them on a cookie error. -/
def Downloader.GetInfo (d : Downloader)
    (getInfo : Bool → Except String VideoInfo) :
    Except String VideoInfo × List Bool :=
  credRetryTrace d.cookiesFile getInfo

/-- `AudioTrack` (voiceover.go): a YouTube audio track. -/
structure AudioTrack where
  FormatID : String
  Language : String
  Quality : String
  Bitrate : Int
deriving DecidableEq

/-- `VoiceoverService` (voiceover.go). -/
structure VoiceoverService where
  OutputDir : String
  TargetLang : String
  CookiesFile : String

/-- `VoiceoverResult` (voiceover.go). -/
structure VoiceoverResult where
  FilePath : String
  Title : String
  Duration : Int
  FileSize : Int
deriving DecidableEq

/-- `VoiceoverService.GetDubbedAudioTracks` (voiceover.go): probes the
available audio tracks (`v.getDubbedAudioTracks`, modelled by the oracle)
with credentials, retrying once without them on a cookie error. -/
def VoiceoverService.GetDubbedAudioTracks (v : VoiceoverService)
    (inner : Bool → Except String (List AudioTrack)) :
    Except String (List AudioTrack) × List Bool :=
  credRetryTrace v.CookiesFile inner

/-- `VoiceoverService.DownloadDubbedTrack` (voiceover.go): downloads one
audio track (`v.downloadDubbedTrack`, modelled by the oracle) with
credentials, retrying once without them on a cookie error. -/
def VoiceoverService.DownloadDubbedTrack (v : VoiceoverService)
    (inner : Bool → Except String VoiceoverResult) :
    Except String VoiceoverResult × List Bool :=
  credRetryTrace v.CookiesFile inner

/-- The behaviour claimed for each credential-using entry point: at most two
inner calls, the first with credentials; a successful first call is returned
as-is with a single call made; a failed first call is retried exactly once,
without credentials, iff the credentials file is configured and the error
matches the marker set, and then the second call's result (in particular its
error) is what the caller sees; otherwise the first error is surfaced with no
second call. -/
def CredRetrySpec {α : Type}
    (run : (Bool → Except String α) → Except String α × List Bool)
    (cookiesFile : String) : Prop :=
  ∀ inner : Bool → Except String α,
    (run inner).2.length ≤ 2 ∧
    (run inner).2.head? = some true ∧
    (∀ a, inner true = .ok a → run inner = (.ok a, [true])) ∧
    (∀ e, inner true = .error e →
      (cookiesFile ≠ "" ∧ IsCookieError e = true →
        run inner = (inner false, [true, false])) ∧
      (¬(cookiesFile ≠ "" ∧ IsCookieError e = true) →
        run inner = (.error e, [true])))

/-- A concrete always-failing download oracle whose first (with-credentials)
error carries a credential-expiry marker. -/
def c1InnerEx : Bool → Except String String :=
  fun useCookies =>
    if useCookies then .error "ERROR: cookies have expired, refresh them"
    else .error "second failure without cookies"

/-- Go `strings.HasPrefix s pre` (checked on the character lists; all strings
this program compares are valid Unicode, where character-level and byte-level
prefixing agree). -/
def goHasPrefix (s pre : String) : Bool :=
  pre.toList.isPrefixOf s.toList

/-- The language-match test used by `FindDubbedTrack` (voiceover.go): exact
code match, or prefix match in either direction across a `"-"` separator
(`"ru"` matches `"ru-RU"` and vice versa). -/
def dubbedLangMatch (targetLang lang : String) : Bool :=
  lang == targetLang ||
  goHasPrefix lang (targetLang ++ "-") ||
  goHasPrefix targetLang (lang ++ "-")

/-- `VoiceoverService.FindDubbedTrack` (voiceover.go): the first track of the
list whose language matches the target language. -/
def VoiceoverService.FindDubbedTrack (v : VoiceoverService)
    (tracks : List AudioTrack) : Option AudioTrack :=
  tracks.find? (fun t => dubbedLangMatch v.TargetLang t.Language)

/-- `lingvaInstances` (telegram_bot.go): the declared fallback list of Lingva
Translate mirrors, in order. -/
def lingvaInstances : List String :=
  [ "https://lingva.lunar.icu/api/v1"
  , "https://translate.plausibility.cloud/api/v1"
  , "https://lingva.garudalinux.org/api/v1"
  , "https://translate.projectsegfau.lt/api/v1" ]

/-- `Translator` (telegram_bot.go).  The `http.Client` is not modelled; each
per-mirror HTTP attempt is an oracle. -/
structure Translator where
  instances : List String
  targetLang : String

/-- `NewTranslator` (telegram_bot.go): defaults the target language to `"ru"`
and installs the declared mirror list. -/
def NewTranslator (targetLang : String) : Translator :=
  { instances := lingvaInstances
  , targetLang := if targetLang = "" then "ru" else targetLang }

/-- The final error message of `translateChunk` when every mirror failed,
wrapping the last mirror's error (`fmt.Errorf("all translation instances
failed, last error: %w", lastErr)`). -/
def allFailedMsg : Option String → String
  | some e => "all translation instances failed, last error: " ++ e
  | none => "all translation instances failed, last error: "

/-- The mirror loop of `Translator.translateChunk` (telegram_bot.go): try each
instance in order; the first success returns immediately; each failure
becomes `lastErr`; when the list is exhausted, fail with `allFailedMsg`.
`call inst` is the oracle for one full attempt against mirror `inst`
(request creation, HTTP round trip, status check, JSON decode and the
in-band `result.Error` check collapse to one `Except` outcome).  The second
component records the mirrors contacted, in order. -/
def translateChunkLoop (call : String → Except String String) :
    List String → Option String → Except String String × List String
  | [], lastErr => (.error (allFailedMsg lastErr), [])
  | inst :: rest, lastErr =>
    match call inst with
    | .ok translation => (.ok translation, [inst])
    | .error e =>
      let r := translateChunkLoop call rest (some e)
      (r.1, inst :: r.2)

/-- `Translator.translateChunk` (telegram_bot.go): run the mirror loop over
the configured instances with no previous error. -/
def Translator.translateChunk (t : Translator)
    (call : String → Except String String) :
    Except String String × List String :=
  translateChunkLoop call t.instances none

/-- The spec's three-mirror scenario: the first two mirrors fail, the third
succeeds. -/
def c4CallEx : String → Except String String := fun inst =>
  if inst = "m1" then .error "mirror one down"
  else if inst = "m2" then .error "mirror two down"
  else if inst = "m3" then .ok "translated text"
  else .error "unknown mirror"

/-!
Text chunking for translation (telegram_bot.go).  Go strings are byte
strings; `len`, `strings.Split` and `strings.Builder` all operate on bytes,
so this part of the embedding works on `List Nat` (UTF-8 bytes).  The
paragraph separator `"\n\n"` is the byte pair `[10, 10]`.
-/

/-- Go `strings.Split(text, "\n\n")` on bytes: split at each leftmost,
non-overlapping occurrence of `[10, 10]`. -/
def splitParas : List Nat → List (List Nat)
  | [] => [[]]
  | 10 :: 10 :: rest => [] :: splitParas rest
  | b :: rest =>
    match splitParas rest with
    | [] => [[b]]
    | p :: ps => (b :: p) :: ps

/-- Go `strings.Join(chunks, "\n\n")` on bytes: interleave the byte pair
`[10, 10]` between consecutive pieces. -/
def joinParas : List (List Nat) → List Nat
  | [] => []
  | [p] => p
  | p :: q :: ps => p ++ 10 :: 10 :: joinParas (q :: ps)

/-- The paragraph-accumulation loop of `splitTextForTranslation`
(telegram_bot.go): `chunks`/`current` mirror the Go `chunks` slice and the
`strings.Builder`.  For each paragraph: flush the builder when it is nonempty
and adding the paragraph (plus a 2-byte separator) would exceed `maxSize`;
write a separator if the builder is nonempty; append the paragraph.  After
the loop, flush a nonempty builder. -/
def splitLoop (m : Int) : List (List Nat) → List (List Nat) → List Nat →
    List (List Nat)
  | [], chunks, current =>
    if 0 < current.length then chunks ++ [current] else chunks
  | para :: rest, chunks, current =>
    if (current.length : Int) + (para.length : Int) + 2 > m ∧
        0 < current.length then
      splitLoop m rest (chunks ++ [current]) para
    else if 0 < current.length then
      splitLoop m rest chunks (current ++ [10, 10] ++ para)
    else
      splitLoop m rest chunks (current ++ para)

/-- `splitTextForTranslation` (telegram_bot.go): texts within the cap are a
single chunk; longer texts are split at `"\n\n"` boundaries and greedily
re-packed under the cap. -/
def splitTextForTranslation (text : List Nat) (maxSize : Int) :
    List (List Nat) :=
  if (text.length : Int) ≤ maxSize then [text]
  else splitLoop maxSize (splitParas text) [] []

/-- Observable events of `Translator.Translate`: one chunk-translation
request (`translateChunk` on one chunk), or one `time.Sleep` of the given
number of milliseconds. -/
inductive TrEv
  | callChunk (chunk : List Nat)
  | sleepMs (ms : Nat)
deriving DecidableEq

/-- The chunk loop of `Translator.Translate` (telegram_bot.go): translate
each chunk in order (`tc` is the oracle for `translateChunk` on one chunk);
on a failure at chunk `i`, return `failed to translate chunk i` wrapping the
chunk's error; otherwise accumulate the translations and sleep 500 ms
between consecutive chunks.  The event list records the calls and sleeps in
order. -/
def translateChunksSeq (tc : List Nat → Except String (List Nat)) :
    List (List Nat) → Nat → Except String (List Nat) × List TrEv
  | [], _ => (.ok [], [])
  | c :: rest, i =>
    match tc c with
    | .error e =>
      (.error ("failed to translate chunk " ++ toString i ++ ": " ++ e),
       [.callChunk c])
    | .ok tr =>
      match rest with
      | [] => (.ok tr, [.callChunk c])
      | r :: rs =>
        let res := translateChunksSeq tc (r :: rs) (i + 1)
        ((match res.1 with
          | .ok restTr => .ok (tr ++ restTr)
          | .error e => .error e),
         .callChunk c :: .sleepMs 500 :: res.2)

/-- `Translator.Translate` (telegram_bot.go): text already in the target
language is returned untouched; text within the 500-byte cap is a single
`translateChunk` call; longer text is chunked by `splitTextForTranslation`
and run through the sequential chunk loop.  `detect` is `DetectLanguage`
(the Cyrillic/Latin-ratio heuristic, whose Unicode script tables are not
reproduced here), `tc` the oracle for `translateChunk` on one chunk. -/
def Translator.Translate (t : Translator) (detect : List Nat → String)
    (tc : List Nat → Except String (List Nat)) (text : List Nat) :
    Except String (List Nat) × List TrEv :=
  if detect text = t.targetLang then (.ok text, [])
  else if (text.length : Int) ≤ 500 then (tc text, [.callChunk text])
  else translateChunksSeq tc (splitTextForTranslation text 500) 0

/-- A 501-byte single-paragraph text for the C5 witness. -/
def c5TextEx : List Nat := List.replicate 501 97

/-!
The voiceover pipeline `TelegramBot.processVoiceover` (subtitle.go).
External calls and store results are supplied by a `VoEnv` oracle; the
control flow, method selection and error wrapping are from the source.
-/

/-- Oracle for one `processVoiceover` run: the outcome of each external call
and store operation it may perform.  `fileDuration` is `DurationSvc.File`
(returning 0 when the service is absent or the duration unknown). -/
structure VoEnv where
  checkProcessedFound : Bool
  getInfo : Except String VideoInfo
  getDubbedAudioTracks : Except String (List AudioTrack)
  downloadDubbedTrack : Except String String
  translateVideo : Except String String
  subtitlesVoiceover : Except String (String × Int)
  fileDuration : String → Int
  save : Except String Bool

/-- Terminal outcome of `processVoiceover`. -/
inductive VoOutcome
  | alreadyInFeed
  | alreadyExists
  | added (method : String) (filePath : String) (duration : Int)
  | failed (e : String)
deriving DecidableEq

/-- Result of a `processVoiceover` run: the terminal outcome, plus the value
of the local `method` variable at the end of the acquisition step (`none`
when the run ended before a method was committed). -/
structure VoRun where
  outcome : VoOutcome
  method : Option String
deriving DecidableEq

/-- Steps 5–10 of `processVoiceover`: fix up the duration from the file when
it is still 0, then `Save` (store error fails the run; `created=false` is the
benign already-exists outcome; otherwise mark processed, evict and report). -/
def voFinish (env : VoEnv) (method fp : String) (dur : Int) : VoRun :=
  let duration :=
    if dur = 0 ∧ 0 < env.fileDuration fp then env.fileDuration fp else dur
  match env.save with
  | .error e => { outcome := .failed ("failed to save: " ++ e), method := some method }
  | .ok false => { outcome := .alreadyExists, method := some method }
  | .ok true => { outcome := .added method fp duration, method := some method }

/-- `TelegramBot.processVoiceover` (subtitle.go): dedup check, metadata
fetch, then method selection — the YouTube dubbed track when the probe
succeeded and a matching track exists and its download succeeds (tag
`youtube-dubbed`); otherwise the subtitles path for sources over 4 hours
(tag `subtitles-tts`) or the external tool for shorter ones (tag
`vot-cli`). -/
def processVoiceover (v : VoiceoverService) (env : VoEnv) : VoRun :=
  if env.checkProcessedFound then { outcome := .alreadyInFeed, method := none }
  else
    match env.getInfo with
    | .error e =>
      { outcome := .failed ("failed to get video info: " ++ e), method := none }
    | .ok info =>
      let tracks :=
        match env.getDubbedAudioTracks with
        | .ok ts => ts
        | .error _ => []
      let probeOk : Bool :=
        match env.getDubbedAudioTracks with
        | .ok _ => true
        | .error _ => false
      let dubbedTrack := VoiceoverService.FindDubbedTrack v tracks
      let dubbedFile : Option String :=
        if probeOk = true ∧ dubbedTrack.isSome = true then
          match env.downloadDubbedTrack with
          | .ok fp => some fp
          | .error _ => none
        else none
      match dubbedFile with
      | some fp => voFinish env "youtube-dubbed" fp 0
      | none =>
        if info.Duration > 14400 then
          match env.subtitlesVoiceover with
          | .error e => { outcome := .failed e, method := none }
          | .ok (fp, dur) => voFinish env "subtitles-tts" fp dur
        else
          match env.translateVideo with
          | .error e =>
            { outcome := .failed ("failed to get voiceover: " ++ e), method := none }
          | .ok fp => voFinish env "vot-cli" fp 0

/-!
Resource-ID derivation (subtitle.go): `extractYouTubeVideoID` (regex
scanner), `makeArticleID` (SHA-1 based) and the `"vo_"` voiceover ID.
SHA-1 is implemented in full, as Go's `crypto/sha1` computes it; bytes are
`Nat`s below 256 by construction.
-/

/-- Truncate to 32 bits. -/
def w32 (n : Nat) : Nat := n % 4294967296

/-- Rotate a 32-bit word left by `k`. -/
def rotl (k x : Nat) : Nat := w32 (x <<< k) ||| (x >>> (32 - k))

/-- Big-endian bytes of a 32-bit word. -/
def be32 (x : Nat) : List Nat :=
  [x >>> 24 % 256, x >>> 16 % 256, x >>> 8 % 256, x % 256]

/-- Big-endian bytes of a 64-bit word. -/
def be64 (x : Nat) : List Nat :=
  [x >>> 56 % 256, x >>> 48 % 256, x >>> 40 % 256, x >>> 32 % 256,
   x >>> 24 % 256, x >>> 16 % 256, x >>> 8 % 256, x % 256]

/-- SHA-1 padding: `0x80`, zeros to 56 mod 64, then the bit length. -/
def sha1Pad (msg : List Nat) : List Nat :=
  msg ++ 128 :: List.replicate ((55 + 64 - msg.length % 64) % 64) 0 ++
    be64 (8 * msg.length)

/-- Split a byte list into 64-byte blocks (structural recursion on a fuel
bound so that the definition computes by reduction; the fuel `l.length`
always suffices since each step consumes at least one byte). -/
def chunk64Fuel : Nat → List Nat → List (List Nat)
  | 0, _ => []
  | _ + 1, [] => []
  | fuel + 1, b :: rest => (b :: rest).take 64 :: chunk64Fuel fuel (rest.drop 63)

/-- Split a byte list into 64-byte blocks. -/
def chunk64 (l : List Nat) : List (List Nat) := chunk64Fuel l.length l

/-- The `j`-th big-endian 32-bit word of a 64-byte block. -/
def wordAt (chunk : List Nat) (j : Nat) : Nat :=
  chunk.getD (4 * j) 0 * 16777216 + chunk.getD (4 * j + 1) 0 * 65536 +
    chunk.getD (4 * j + 2) 0 * 256 + chunk.getD (4 * j + 3) 0

/-- One message-schedule extension step on the reversed word list:
`w[i] = rotl1 (w[i-3] xor w[i-8] xor w[i-14] xor w[i-16])`. -/
def sha1ExtendStep (rev : List Nat) : Nat :=
  rotl 1 (((rev.getD 2 0) ^^^ (rev.getD 7 0)) ^^^
    ((rev.getD 13 0) ^^^ (rev.getD 15 0)))

/-- Extend the reversed message schedule by `k` words. -/
def sha1Extend : Nat → List Nat → List Nat
  | 0, rev => rev
  | k + 1, rev => sha1Extend k (sha1ExtendStep rev :: rev)

/-- The SHA-1 round function. -/
def sha1F (i b c d : Nat) : Nat :=
  if i < 20 then (b &&& c) ||| ((b ^^^ 4294967295) &&& d)
  else if i < 40 then (b ^^^ c) ^^^ d
  else if i < 60 then ((b &&& c) ||| (b &&& d)) ||| (c &&& d)
  else (b ^^^ c) ^^^ d

/-- The SHA-1 round constants. -/
def sha1K (i : Nat) : Nat :=
  if i < 20 then 1518500249
  else if i < 40 then 1859775393
  else if i < 60 then 2400959708
  else 3395469782

/-- One SHA-1 round on the five-word state. -/
def sha1Round (st : Nat × Nat × Nat × Nat × Nat) (iw : Nat × Nat) :
    Nat × Nat × Nat × Nat × Nat :=
  (w32 (rotl 5 st.1 + sha1F iw.1 st.2.1 st.2.2.1 st.2.2.2.1 + st.2.2.2.2 +
      sha1K iw.1 + iw.2),
   st.1, rotl 30 st.2.1, st.2.2.1, st.2.2.2.1)

/-- Process one 64-byte block. -/
def sha1Chunk (h : Nat × Nat × Nat × Nat × Nat) (chunk : List Nat) :
    Nat × Nat × Nat × Nat × Nat :=
  let ws := (sha1Extend 64 (((List.range 16).map (wordAt chunk)).reverse)).reverse
  let r := (List.zip (List.range 80) ws).foldl sha1Round h
  (w32 (h.1 + r.1), w32 (h.2.1 + r.2.1), w32 (h.2.2.1 + r.2.2.1),
   w32 (h.2.2.2.1 + r.2.2.2.1), w32 (h.2.2.2.2 + r.2.2.2.2))

/-- SHA-1 of a byte list, as the 20-byte digest. -/
def sha1 (msg : List Nat) : List Nat :=
  let fin := (chunk64 (sha1Pad msg)).foldl sha1Chunk
    (1732584193, 4023233417, 2562383102, 271733878, 3285377520)
  be32 fin.1 ++ be32 fin.2.1 ++ be32 fin.2.2.1 ++ be32 fin.2.2.2.1 ++
    be32 fin.2.2.2.2

/-- UTF-8 encoding of one character (Go `[]byte(s)` view of a string). -/
def utf8EncodeChar (c : Char) : List Nat :=
  let n := c.toNat
  if n < 128 then [n]
  else if n < 2048 then [192 ||| (n >>> 6), 128 ||| (n &&& 63)]
  else if n < 65536 then
    [224 ||| (n >>> 12), 128 ||| ((n >>> 6) &&& 63), 128 ||| (n &&& 63)]
  else
    [240 ||| (n >>> 18), 128 ||| ((n >>> 12) &&& 63),
     128 ||| ((n >>> 6) &&& 63), 128 ||| (n &&& 63)]

/-- The UTF-8 bytes of a string. -/
def utf8Bytes (s : String) : List Nat :=
  (s.toList.map utf8EncodeChar).flatten

/-- Lowercase hex digit. -/
def hexDigitChar (n : Nat) : Char :=
  if n < 10 then Char.ofNat (48 + n) else Char.ofNat (87 + n)

/-- Go `fmt.Sprintf("%x", bytes)`: two lowercase hex digits per byte. -/
def bytesToHex (bs : List Nat) : List Char :=
  (bs.map (fun b => [hexDigitChar (b / 16), hexDigitChar (b % 16)])).flatten

/-- `TelegramBot.makeArticleID` (subtitle.go):
`fmt.Sprintf("art_%x", sha1("article::" + url))[:16]` — the first 16 bytes
(here: characters, everything being ASCII) of `"art_"` followed by the hex
digest. -/
def makeArticleID (url : String) : String :=
  String.mk (("art_".toList ++
    bytesToHex (sha1 (utf8Bytes ("article::" ++ url)))).take 16)

/-- The character class `[a-zA-Z0-9_-]` of the YouTube-ID regexes. -/
def ytIDChar (c : Char) : Bool :=
  (decide ('a' ≤ c) && decide (c ≤ 'z')) ||
  (decide ('A' ≤ c) && decide (c ≤ 'Z')) ||
  (decide ('0' ≤ c) && decide (c ≤ '9')) || c == '_' || c == '-'

/-- Try the regex `lit([a-zA-Z0-9_-]{11})` anchored at the start of `text`:
the literal prefix followed by exactly 11 class characters. -/
def ytMatchAt (lit text : List Char) : Option (List Char) :=
  if lit.isPrefixOf text then
    let cand := (text.drop lit.length).take 11
    if cand.length = 11 ∧ cand.all ytIDChar then some cand else none
  else none

/-- Leftmost match of `lit([a-zA-Z0-9_-]{11})` in `text` (the semantics of
`regexp.FindStringSubmatch` for these patterns), returning the capture. -/
def ytFindCapture (lit : List Char) : List Char → Option (List Char)
  | [] => ytMatchAt lit []
  | c :: rest =>
    match ytMatchAt lit (c :: rest) with
    | some cap => some cap
    | none => ytFindCapture lit rest

/-- `TelegramBot.extractYouTubeVideoID` (subtitle.go): try the four URL
patterns in order, returning the first 11-character capture, or `""`. -/
def extractYouTubeVideoID (text : String) : String :=
  match ytFindCapture "youtube.com/watch?v=".toList text.toList with
  | some cap => String.mk cap
  | none =>
    match ytFindCapture "youtu.be/".toList text.toList with
    | some cap => String.mk cap
    | none =>
      match ytFindCapture "youtube.com/embed/".toList text.toList with
      | some cap => String.mk cap
      | none =>
        match ytFindCapture "youtube.com/v/".toList text.toList with
        | some cap => String.mk cap
        | none => ""

/-- `voiceoverID` — the `fmt.Sprintf("vo_%s", videoID)` resource ID of the
voiceover pipeline (subtitle.go, `processVoiceover`). -/
def voiceoverID (videoID : String) : String := "vo_" ++ videoID

/-!
The Telegram bot command handlers (subtitle.go) and the video pipeline
`processVideo`.  The transport and store are oracles; outbound messages are
modelled symbolically by `Msg` (the rendered text of dynamic messages is not
reproduced, only which message is sent with which data); `Ev` records the
externally observable actions of one handler invocation, in order.
-/

/-- `ytfeed.Entry`, restricted to the fields the handlers read (`Published`,
`Updated`, `Media` and `Author` are carried opaquely by the code and never
branched on). -/
structure Entry where
  ChannelID : String
  VideoID : String
  Title : String
  LinkHref : String
  File : String
  Duration : Int
deriving DecidableEq

/-- A Telegram user (only the ID is consulted). -/
structure TbUser where
  ID : Int
deriving DecidableEq

/-- An inbound Telegram message: sender (possibly absent) and text. -/
structure TbMessage where
  sender : Option TbUser
  text : String

/-- The `TelegramBot` configuration fields the handlers read. -/
structure TelegramBot where
  AllowedUserID : Int
  FeedName : String
  MaxItems : Int
  TTSEnabled : Bool

/-- `TelegramBot.isAuthorized` (subtitle.go): a nil sender is rejected;
otherwise the sender ID must equal the single allowed user ID. -/
def TelegramBot.isAuthorized (t : TelegramBot) : Option TbUser → Bool
  | none => false
  | some u => u.ID == t.AllowedUserID

/-- Outbound messages, symbolically.  `unauthorized` is the fixed denial
text "Unauthorized. This bot is private.". -/
inductive Msg
  | unauthorized
  | processing
  | processingArticle
  | noValidURL (ttsEnabled : Bool)
  | errorLoading (e : String)
  | errorGeneric (e : String)
  | noVideosYet
  | noVideosAdded
  | listing (entries : List Entry)
  | history (entries : List Entry)
  | emptyFeed
  | usageDel
  | onlyNEntries (n : Nat)
  | errorRemoving (e : String)
  | deletedKeepListErr (title : String) (e : String)
  | deleted (title : String) (remaining : List Entry)
  | help
  | usageVo
  | invalidYouTubeURL
  | votCliMissing
  | gettingVoiceover
deriving DecidableEq

/-- Observable actions of one handler invocation, in order. -/
inductive Ev
  | send (msg : Msg)
  | storeLoad (feed : String) (limit : Int)
  | storeRemoveEntry (e : Entry)
  | storeResetProcessed (e : Entry)
  | fileRemove (path : String)
  | spawnVideoPipeline (videoID : String)
  | spawnArticlePipeline (url : String)
  | spawnVoiceoverPipeline (videoID : String)
deriving DecidableEq

/-- Is `ev` a store access, a filesystem action, or a pipeline launch (as
opposed to a pure transport reply)? -/
def Ev.isEffect : Ev → Bool
  | .send _ => false
  | _ => true

/-- The whitespace class of Go's regexp `\s`. -/
def isSpaceGo (c : Char) : Bool :=
  c == ' ' || c == '\t' || c == '\n' || c == Char.ofNat 12 || c == '\r'

/-- Go `regexp.MustCompile(s+).Split(text, -1)` on characters, with a fuel
bound for structural recursion (`l.length` always suffices): split around
maximal whitespace runs, keeping empty leading/trailing fields. -/
def splitWSFuel : Nat → List Char → List (List Char)
  | 0, _ => [[]]
  | _ + 1, [] => [[]]
  | fuel + 1, c :: rest =>
    if isSpaceGo c then [] :: splitWSFuel fuel (rest.dropWhile isSpaceGo)
    else
      match splitWSFuel fuel rest with
      | [] => [[c]]
      | tok :: toks => (c :: tok) :: toks

/-- Go `regexp.MustCompile(s+).Split(text, -1)`. -/
def splitWS (l : List Char) : List (List Char) := splitWSFuel l.length l

/-- Go `regexp.MustCompile(s+).Split(text, 2)`: split only at the first
whitespace run. -/
def splitWS2 (l : List Char) : List (List Char) :=
  match l.dropWhile (fun c => !isSpaceGo c) with
  | [] => [l.takeWhile (fun c => !isSpaceGo c)]
  | rest => [l.takeWhile (fun c => !isSpaceGo c), rest.dropWhile isSpaceGo]

/-- Accumulate a maximal decimal-digit prefix. -/
def parseDigitsAux : List Char → Nat → Nat
  | [], acc => acc
  | c :: rest, acc =>
    if decide ('0' ≤ c) && decide (c ≤ '9') then
      parseDigitsAux rest (acc * 10 + (c.toNat - 48))
    else acc

/-- Parse a decimal-digit prefix; `none` when the first character is not a
digit. -/
def parseDigits : List Char → Option Nat
  | [] => none
  | c :: rest =>
    if decide ('0' ≤ c) && decide (c ≤ '9') then
      some (parseDigitsAux rest (c.toNat - 48))
    else none

/-- Go `fmt.Sscanf(tok, "%d", &idx)`: an optional sign followed by at least
one digit; trailing characters are not consumed and cause no error. -/
def parseIntToken : List Char → Option Int
  | '-' :: rest => (parseDigits rest).map (fun n => -(n : Int))
  | '+' :: rest => (parseDigits rest).map (fun n => (n : Int))
  | l => (parseDigits l).map (fun n => (n : Int))

/-- The argument-parsing prefix of `handleDelete` (subtitle.go): default
index 1; a present, nonempty second field must scan as an integer ≥ 1, else
the usage message is sent (`none`). -/
def parseDelArg (text : String) : Option Int :=
  let args := splitWS text.toList
  if 1 < args.length ∧ args.getD 1 [] ≠ [] then
    match parseIntToken (args.getD 1 []) with
    | none => none
    | some n => if n < 1 then none else some n
  else some 1

/-- Oracle for one `handleText` run: `extractURL` result and the
`IsArticleURL` classification (both pure helpers over the URL, elided
here). -/
structure TextEnv where
  extractedURL : String
  isArticle : Bool

/-- Result of one handler invocation: a normal return with its events, or a
Go runtime panic (nil-pointer dereference), with the events emitted before
the panic. -/
inductive HandlerResult
  | ok (events : List Ev)
  | panicked (events : List Ev)
deriving DecidableEq

/-- The events a handler invocation emitted, whether or not it finished
normally. -/
def HandlerResult.events : HandlerResult → List Ev
  | .ok es => es
  | .panicked es => es

/-- `TelegramBot.handleText` (subtitle.go): on an unauthorized message the
handler first logs `unauthorized user %d` with `m.Sender.ID` — for a nil
sender, this dereference panics before anything is sent — and then sends
the fixed denial; for an authorized sender a YouTube URL starts the video
pipeline, an article URL (with TTS enabled) starts the article pipeline,
and anything else gets the help reply. -/
def TelegramBot.handleText (t : TelegramBot) (env : TextEnv) (m : TbMessage) :
    HandlerResult :=
  if t.isAuthorized m.sender = false then
    match m.sender with
    | none => .panicked []
    | some _ => .ok [.send .unauthorized]
  else
    .ok
      (if extractYouTubeVideoID m.text ≠ "" then
        [.send .processing, .spawnVideoPipeline (extractYouTubeVideoID m.text)]
      else if env.extractedURL ≠ "" ∧ t.TTSEnabled = true ∧ env.isArticle = true then
        [.send .processingArticle, .spawnArticlePipeline env.extractedURL]
      else [.send (.noValidURL t.TTSEnabled)])

/-- Oracle for one `handleList` run. -/
structure ListEnv where
  load : Except String (List Entry)

/-- `TelegramBot.handleList` (subtitle.go): a silent return for unauthorized
senders; otherwise load the 10 most recent entries and reply. -/
def TelegramBot.handleList (t : TelegramBot) (env : ListEnv) (m : TbMessage) :
    List Ev :=
  if t.isAuthorized m.sender = false then []
  else
    .storeLoad t.FeedName 10 ::
      (match env.load with
       | .error e => [.send (.errorLoading e)]
       | .ok [] => [.send .noVideosYet]
       | .ok entries => [.send (.listing entries)])

/-- `TelegramBot.handleHistory` (subtitle.go): a silent return for
unauthorized senders; otherwise load up to `MaxItems` entries and reply. -/
def TelegramBot.handleHistory (t : TelegramBot) (env : ListEnv)
    (m : TbMessage) : List Ev :=
  if t.isAuthorized m.sender = false then []
  else
    .storeLoad t.FeedName t.MaxItems ::
      (match env.load with
       | .error e => [.send (.errorGeneric e)]
       | .ok [] => [.send .noVideosAdded]
       | .ok entries => [.send (.history entries)])

/-- Oracle for one `handleDelete` run: the two `Load` results, the
`os.Remove` outcome (consulted only for logging), the `Store.Remove`
outcome, and the `ResetProcessed` outcome (ignored). -/
structure DelEnv where
  load : Except String (List Entry)
  fileRemoveErr : Option String
  removeErr : Option String
  resetErr : Option String
  load2 : Except String (List Entry)

/-- The entry selected by `/del idx`: `entries[idx-1]` (the index is valid
whenever this is reached). -/
def delTarget (entries : List Entry) (idx : Int) : Entry :=
  entries.getD (idx - 1).toNat ⟨"", "", "", "", "", 0⟩

/-- `TelegramBot.handleDelete` (subtitle.go): a silent return for
unauthorized senders; parse the index argument; load the feed; validate the
index; delete the entry's backing file from disk (best-effort, before the
store mutation); remove the entry row; reset its ProcessedMarker; reload and
report. -/
def TelegramBot.handleDelete (t : TelegramBot) (env : DelEnv) (m : TbMessage) :
    List Ev :=
  if t.isAuthorized m.sender = false then []
  else
    match parseDelArg m.text with
    | none => [.send .usageDel]
    | some idx =>
      .storeLoad t.FeedName t.MaxItems ::
        (match env.load with
         | .error e => [.send (.errorGeneric e)]
         | .ok entries =>
           if entries.length = 0 then [.send .emptyFeed]
           else if (entries.length : Int) < idx then
             [.send (.onlyNEntries entries.length)]
           else
             (let entry := delTarget entries idx
              (if entry.File ≠ "" then [Ev.fileRemove entry.File] else []) ++
                Ev.storeRemoveEntry entry ::
                  (match env.removeErr with
                   | some e => [.send (.errorRemoving e)]
                   | none =>
                     Ev.storeResetProcessed entry ::
                       Ev.storeLoad t.FeedName 10 ::
                         (match env.load2 with
                          | .error e =>
                            [.send (.deletedKeepListErr entry.Title e)]
                          | .ok updated =>
                            [.send (.deleted entry.Title updated)]))))

/-- `TelegramBot.handleHelp` (subtitle.go): the denial for unauthorized
senders, the help text otherwise. -/
def TelegramBot.handleHelp (t : TelegramBot) (m : TbMessage) : List Ev :=
  if t.isAuthorized m.sender = false then [.send .unauthorized]
  else [.send .help]

/-- Oracle for one `handleVoiceover` run. -/
structure VoCmdEnv where
  votCliAvailable : Bool

/-- `TelegramBot.handleVoiceover` (subtitle.go): a silent return for
unauthorized senders; parse `/vo <url>`; validate the URL and `vot-cli`
availability; then acknowledge and launch the voiceover pipeline. -/
def TelegramBot.handleVoiceover (t : TelegramBot) (env : VoCmdEnv)
    (m : TbMessage) : List Ev :=
  if t.isAuthorized m.sender = false then []
  else
    let args := splitWS2 m.text.toList
    if args.length < 2 ∨ args.getD 1 [] = [] then [.send .usageVo]
    else
      if extractYouTubeVideoID (String.mk (args.getD 1 [])) = "" then
        [.send .invalidYouTubeURL]
      else if env.votCliAvailable = false then [.send .votCliMissing]
      else
        [.send .gettingVoiceover,
         .spawnVoiceoverPipeline (extractYouTubeVideoID (String.mk (args.getD 1 [])))]

/-- Observable actions of one `processVideo` run, in order: status edits,
the metadata fetch, the dedup check, the audio download, the store
operations, file deletions during eviction, and the delayed deletion of the
original message. -/
inductive PEv
  | editStatus
  | adapterGetInfo
  | storeCheckProcessed
  | adapterGet
  | storeSave
  | storeSetProcessed
  | storeRemoveOld
  | fileRemove (path : String)
  | scheduleDeleteOriginal
deriving DecidableEq

/-- Oracle for one `processVideo` run. -/
structure PvEnv where
  getInfo : Except String VideoInfo
  checkProcessedFound : Bool
  get : Except String String
  fileDuration : String → Int
  save : Except String Bool
  removeOld : Except String (List String)

/-- Terminal outcome of `processVideo`. -/
inductive PvOutcome
  | alreadyInFeed
  | alreadyExists
  | added (file : String) (duration : Int)
  | failed (e : String)
deriving DecidableEq

/-- `TelegramBot.removeOldEntries` (subtitle.go): nothing when `MaxItems ≤ 0`;
otherwise `RemoveOld` followed by best-effort deletion of each returned file
path (a store error is logged and deletes nothing). -/
def removeOldEntriesTrace (t : TelegramBot)
    (removeOld : Except String (List String)) : List PEv :=
  if t.MaxItems ≤ 0 then []
  else
    PEv.storeRemoveOld ::
      (match removeOld with
       | .error _ => []
       | .ok files => files.map PEv.fileRemove)

/-- `TelegramBot.processVideo` (subtitle.go): metadata fetch, dedup check
(short-circuiting to already-in-feed), audio download, duration fix-up,
`Save` (`created=false` is the benign already-exists outcome), mark
processed, evict, report. -/
def processVideo (t : TelegramBot) (env : PvEnv) (videoID : String) :
    PvOutcome × List PEv :=
  match env.getInfo with
  | .error e =>
    (.failed ("failed to get video info: " ++ e),
     [.editStatus, .adapterGetInfo])
  | .ok info =>
    if env.checkProcessedFound then
      (.alreadyInFeed,
       [.editStatus, .adapterGetInfo, .storeCheckProcessed, .editStatus,
        .scheduleDeleteOriginal])
    else
      match env.get with
      | .error e =>
        (.failed ("failed to download: " ++ e),
         [.editStatus, .adapterGetInfo, .storeCheckProcessed, .editStatus,
          .adapterGet])
      | .ok file =>
        match env.save with
        | .error e =>
          (.failed ("failed to save: " ++ e),
           [.editStatus, .adapterGetInfo, .storeCheckProcessed, .editStatus,
            .adapterGet, .storeSave])
        | .ok false =>
          (.alreadyExists,
           [.editStatus, .adapterGetInfo, .storeCheckProcessed, .editStatus,
            .adapterGet, .storeSave, .editStatus, .scheduleDeleteOriginal])
        | .ok true =>
          (.added file
            (if 0 < env.fileDuration file then env.fileDuration file
             else info.Duration),
           [.editStatus, .adapterGetInfo, .storeCheckProcessed, .editStatus,
            .adapterGet, .storeSave, .storeSetProcessed] ++
             removeOldEntriesTrace t env.removeOld ++
             [.editStatus, .scheduleDeleteOriginal])

/-- The concrete `/del` run used by the C8 counterexample: an authorized
sender deletes the most recent entry, whose backing file exists. -/
def c8Entry : Entry :=
  ⟨"manual", "dQw4w9WgXcQ", "Some video", "https://y.tube/x",
   "/srv/var/yt/a.mp3", 300⟩

theorem credRetryTrace_spec {α : Type} (cookiesFile : String) :
    CredRetrySpec (credRetryTrace (α := α) cookiesFile) cookiesFile := by
  intro inner
  refine ⟨?_, ?_, ?_, ?_⟩
  · unfold credRetryTrace
    cases h : inner true with
    | ok a => simp
    | error e => by_cases hc : cookiesFile ≠ "" ∧ IsCookieError e = true <;> simp [hc]
  · unfold credRetryTrace
    cases h : inner true with
    | ok a => simp
    | error e => by_cases hc : cookiesFile ≠ "" ∧ IsCookieError e = true <;> simp [hc]
  · intro a ha
    unfold credRetryTrace
    rw [ha]
  · intro e he
    constructor
    · intro hc
      unfold credRetryTrace
      rw [he]
      simp [hc]
    · intro hc
      unfold credRetryTrace
      rw [he]
      simp [hc]

/-- C1: For every external-tool invocation that may use stored credentials
(`Downloader.Get`, `Downloader.GetInfo`,
`VoiceoverService.GetDubbedAudioTracks`,
`VoiceoverService.DownloadDubbedTrack`), the underlying call is made at most
twice; a second call happens only when a credentials file is configured and
the first call's error matches the fixed credential-expiry marker set; the
second call is made without credentials; no retry happens on a non-credential
error; and when both calls fail the surfaced error is the second failure's
(the result is exactly the second call's result). -/
theorem C1_credential_retry (d : Downloader) (v : VoiceoverService) :
    CredRetrySpec (Downloader.Get d) d.cookiesFile ∧
    CredRetrySpec (Downloader.GetInfo d) d.cookiesFile ∧
    CredRetrySpec (VoiceoverService.GetDubbedAudioTracks v) v.CookiesFile ∧
    CredRetrySpec (VoiceoverService.DownloadDubbedTrack v) v.CookiesFile :=
  ⟨credRetryTrace_spec d.cookiesFile, credRetryTrace_spec d.cookiesFile,
   credRetryTrace_spec v.CookiesFile, credRetryTrace_spec v.CookiesFile⟩

theorem C1_credential_retry_witness :
    Downloader.Get ⟨"yt-dlp {{.ID}}", "/tmp", "cookies.txt"⟩ c1InnerEx =
      (.error "second failure without cookies", [true, false]) := by
  have h := (C1_credential_retry ⟨"yt-dlp {{.ID}}", "/tmp", "cookies.txt"⟩
    ⟨"", "ru", ""⟩).1 c1InnerEx
  have h2 := (h.2.2.2 "ERROR: cookies have expired, refresh them" rfl).1
    ⟨by decide, by decide⟩
  rw [h2]
  rfl

theorem find?_first_spec {α : Type} (p : α → Bool) (l : List α) (a : α)
    (h : l.find? p = some a) :
    p a = true ∧
    ∃ i, ∃ hi : i < l.length, l.get ⟨i, hi⟩ = a ∧
      ∀ j (hj : j < i), p (l.get ⟨j, Nat.lt_trans hj hi⟩) = false := by
  induction l with
  | nil => simp [List.find?] at h
  | cons x xs ih =>
    rw [List.find?] at h
    cases hp : p x with
    | true =>
      rw [hp] at h
      simp only [Option.some.injEq] at h
      subst h
      exact ⟨hp, 0, by simp, rfl, fun j hj => absurd hj (Nat.not_lt_zero j)⟩
    | false =>
      rw [hp] at h
      obtain ⟨hpa, i, hi, hget, hbefore⟩ := ih h
      refine ⟨hpa, i + 1, Nat.succ_lt_succ hi, hget, ?_⟩
      intro j hj
      cases j with
      | zero => exact hp
      | succ j' => exact hbefore j' (Nat.lt_of_succ_lt_succ hj)

/-- C3: `FindDubbedTrack` returns the first track whose language matches the
target language (exact equality, or target followed by `"-"`-suffix, or a
`"-"`-separated prefix of the target), and returns `none` exactly when no
track in the list satisfies this predicate. -/
theorem C3_find_dubbed_track (v : VoiceoverService) (tracks : List AudioTrack) :
    (VoiceoverService.FindDubbedTrack v tracks = none ↔
      ∀ t ∈ tracks, dubbedLangMatch v.TargetLang t.Language = false) ∧
    (∀ t, VoiceoverService.FindDubbedTrack v tracks = some t →
      dubbedLangMatch v.TargetLang t.Language = true ∧
      ∃ i, ∃ hi : i < tracks.length, tracks.get ⟨i, hi⟩ = t ∧
        ∀ j (hj : j < i),
          dubbedLangMatch v.TargetLang
            (tracks.get ⟨j, Nat.lt_trans hj hi⟩).Language = false) := by
  constructor
  · rw [VoiceoverService.FindDubbedTrack, List.find?_eq_none]
    constructor
    · intro h t ht
      have := h t ht
      simpa using this
    · intro h t ht
      simp [h t ht]
  · intro t ht
    rw [VoiceoverService.FindDubbedTrack] at ht
    obtain ⟨hp, i, hi, hget, hbefore⟩ :=
      find?_first_spec (fun t => dubbedLangMatch v.TargetLang t.Language)
        tracks t ht
    exact ⟨hp, i, hi, hget, hbefore⟩

/-- C3 witness: with target language `"ru"`, a list whose first track is
English and whose second is the official `"ru-RU"` dub yields the `"ru-RU"`
track (prefix match in the `"ru" ≤ "ru-RU"` direction), and a list with no
Russian track yields `none`. -/
theorem C3_find_dubbed_track_witness :
    dubbedLangMatch "ru" "ru-RU" = true ∧
    (VoiceoverService.FindDubbedTrack ⟨"/tmp", "ru", ""⟩
      [⟨"249", "en", "webm", 50⟩, ⟨"251-9", "ru-RU", "webm", 128⟩] =
        some ⟨"251-9", "ru-RU", "webm", 128⟩) ∧
    VoiceoverService.FindDubbedTrack ⟨"/tmp", "ru", ""⟩
      [⟨"249", "en", "webm", 50⟩] = none := by
  refine ⟨?_, by decide, ?_⟩
  · exact ((C3_find_dubbed_track ⟨"/tmp", "ru", ""⟩
      [⟨"249", "en", "webm", 50⟩, ⟨"251-9", "ru-RU", "webm", 128⟩]).2
      ⟨"251-9", "ru-RU", "webm", 128⟩ (by decide)).1
  · exact (C3_find_dubbed_track ⟨"/tmp", "ru", ""⟩
      [⟨"249", "en", "webm", 50⟩]).1.mpr (by decide)

theorem translateChunkLoop_cons_ok (call : String → Except String String)
    (inst : String) (rest : List String) (lastErr : Option String)
    (res : String) (he : call inst = .ok res) :
    translateChunkLoop call (inst :: rest) lastErr = (.ok res, [inst]) := by
  simp only [translateChunkLoop, he]

theorem translateChunkLoop_cons_err (call : String → Except String String)
    (inst : String) (rest : List String) (lastErr : Option String)
    (e : String) (he : call inst = .error e) :
    translateChunkLoop call (inst :: rest) lastErr =
      ((translateChunkLoop call rest (some e)).1,
       inst :: (translateChunkLoop call rest (some e)).2) := by
  simp only [translateChunkLoop, he]

theorem translateChunkLoop_success (call : String → Except String String)
    (res : String) :
    ∀ (pre : List String) (inst : String) (post : List String)
      (lastErr : Option String),
      (∀ p ∈ pre, ∃ e, call p = .error e) → call inst = .ok res →
      translateChunkLoop call (pre ++ inst :: post) lastErr =
        (.ok res, pre ++ [inst]) := by
  intro pre
  induction pre with
  | nil =>
    intro inst post lastErr _ hok
    rw [List.nil_append, translateChunkLoop_cons_ok call inst post lastErr res hok]
    rfl
  | cons p pre' ih =>
    intro inst post lastErr hpre hok
    obtain ⟨e, he⟩ := hpre p (List.mem_cons_self p pre')
    have hrest := ih inst post (some e)
      (fun q hq => hpre q (List.mem_cons_of_mem p hq)) hok
    rw [List.cons_append,
      translateChunkLoop_cons_err call p (pre' ++ inst :: post) lastErr e he,
      hrest]
    rfl

theorem translateChunkLoop_allfail (call : String → Except String String) :
    ∀ (l : List String) (lastErr : Option String) (hne : l ≠ []),
      (∀ i ∈ l, ∃ e, call i = .error e) →
      ∃ eLast, call (l.getLast hne) = .error eLast ∧
        translateChunkLoop call l lastErr =
          (.error (allFailedMsg (some eLast)), l) := by
  intro l
  induction l with
  | nil => intro _ hne _; exact absurd rfl hne
  | cons x rest ih =>
    intro lastErr hne hall
    obtain ⟨e, he⟩ := hall x (List.mem_cons_self x rest)
    cases rest with
    | nil =>
      refine ⟨e, by simp [List.getLast, he], ?_⟩
      rw [translateChunkLoop_cons_err call x [] lastErr e he]
      rfl
    | cons y rest' =>
      obtain ⟨eLast, hLast, hloop⟩ := ih (some e) (by simp)
        (fun q hq => hall q (List.mem_cons_of_mem x hq))
      refine ⟨eLast, ?_, ?_⟩
      · rw [List.getLast_cons]
        exact hLast
      · rw [translateChunkLoop_cons_err call x (y :: rest') lastErr e he, hloop]

/-- C4: `Translator.translateChunk` tries the configured mirrors in declared
order: when the mirrors before `inst` all fail and `inst` succeeds, the
result is `inst`'s translation, exactly the mirrors up to and including
`inst` were contacted (later mirrors are never contacted) and no earlier
failure is surfaced; when every mirror fails, all mirrors were contacted and
the returned error wraps the last mirror's error.  `NewTranslator` installs
the declared mirror list `lingvaInstances`. -/
theorem C4_translation_mirror_fallback (t : Translator)
    (call : String → Except String String) :
    (∀ (pre : List String) (inst : String) (post : List String) (res : String),
      t.instances = pre ++ inst :: post →
      (∀ p ∈ pre, ∃ e, call p = .error e) → call inst = .ok res →
      Translator.translateChunk t call = (.ok res, pre ++ [inst])) ∧
    (∀ hne : t.instances ≠ [],
      (∀ i ∈ t.instances, ∃ e, call i = .error e) →
      ∃ eLast, call (t.instances.getLast hne) = .error eLast ∧
        Translator.translateChunk t call =
          (.error (allFailedMsg (some eLast)), t.instances)) ∧
    (∀ lang, (NewTranslator lang).instances = lingvaInstances) := by
  refine ⟨?_, ?_, fun _ => rfl⟩
  · intro pre inst post res hsplit hpre hok
    rw [Translator.translateChunk, hsplit]
    exact translateChunkLoop_success call res pre inst post none hpre hok
  · intro hne hall
    obtain ⟨eLast, hLast, hloop⟩ :=
      translateChunkLoop_allfail call t.instances none hne hall
    exact ⟨eLast, hLast, hloop⟩

theorem C4_translation_mirror_fallback_witness :
    Translator.translateChunk ⟨["m1", "m2", "m3"], "ru"⟩ c4CallEx =
      (.ok "translated text", ["m1", "m2", "m3"]) := by
  have h := (C4_translation_mirror_fallback ⟨["m1", "m2", "m3"], "ru"⟩
    c4CallEx).1 ["m1", "m2"] "m3" [] "translated text" rfl
  have := h (by intro p hp
                fin_cases hp
                · exact ⟨"mirror one down", rfl⟩
                · exact ⟨"mirror two down", rfl⟩) rfl
  simpa using this

theorem splitParas_ne_nil (l : List Nat) : splitParas l ≠ [] := by
  induction l using splitParas.induct with
  | case1 => simp [splitParas]
  | case2 rest _ => simp [splitParas]
  | case3 b rest h hres _ => rw [splitParas.eq_3 b rest h, hres]; simp
  | case4 b rest h p ps hres _ => rw [splitParas.eq_3 b rest h, hres]; simp

theorem joinParas_cons_cons (p q : List Nat) (ps : List (List Nat)) :
    joinParas (p :: q :: ps) = p ++ 10 :: 10 :: joinParas (q :: ps) := rfl

theorem joinParas_splitParas (l : List Nat) : joinParas (splitParas l) = l := by
  induction l using splitParas.induct with
  | case1 => rfl
  | case2 rest ih =>
    rw [splitParas.eq_2]
    obtain ⟨p, ps, hps⟩ := List.exists_cons_of_ne_nil (splitParas_ne_nil rest)
    rw [hps] at ih ⊢
    rw [joinParas_cons_cons, ih]
    rfl
  | case3 b rest h hres ih => exact absurd hres (splitParas_ne_nil rest)
  | case4 b rest h p ps hres ih =>
    rw [splitParas.eq_3 b rest h, hres]
    rw [hres] at ih
    cases ps with
    | nil =>
      have : joinParas [p] = rest := ih
      simp only [joinParas] at this ⊢
      rw [this]
    | cons q ps' =>
      rw [joinParas_cons_cons] at ih ⊢
      rw [List.cons_append, ih]

theorem joinParas_head_ne_nil (g : List Nat) (gs : List (List Nat))
    (hg : g ≠ []) : joinParas (g :: gs) ≠ [] := by
  cases gs with
  | nil => simpa [joinParas] using hg
  | cons q ps =>
    rw [joinParas_cons_cons]
    simp [hg]

theorem joinParas_append (xs ys : List (List Nat)) (hxs : xs ≠ [])
    (hys : ys ≠ []) :
    joinParas (xs ++ ys) = joinParas xs ++ 10 :: 10 :: joinParas ys := by
  induction xs with
  | nil => exact absurd rfl hxs
  | cons x xs' ih =>
    cases xs' with
    | nil =>
      obtain ⟨y, ys', hy⟩ := List.exists_cons_of_ne_nil hys
      subst hy
      rw [List.singleton_append, joinParas_cons_cons]
      simp [joinParas]
    | cons x2 xs'' =>
      have h1 : (x :: x2 :: xs'') ++ ys = x :: ((x2 :: xs'') ++ ys) := rfl
      have h2 : (x2 :: xs'') ++ ys = x2 :: (xs'' ++ ys) := rfl
      rw [h1, h2, joinParas_cons_cons, ← h2, ih (by simp), joinParas_cons_cons]
      simp [List.append_assoc]

theorem joinParas_map_join (groups : List (List (List Nat)))
    (h : ∀ g ∈ groups, g ≠ []) :
    joinParas (groups.map joinParas) = joinParas groups.flatten := by
  induction groups with
  | nil => rfl
  | cons g gs ih =>
    cases gs with
    | nil => simp [joinParas]
    | cons g2 gs' =>
      have hg : g ≠ [] := h g (by simp)
      have hjoin_ne : (g2 :: gs').flatten ≠ [] := by
        obtain ⟨q, g2', hq⟩ := List.exists_cons_of_ne_nil (h g2 (by simp))
        simp [hq]
      have ih' := ih (fun g' hg' => h g' (List.mem_cons_of_mem _ hg'))
      rw [List.map_cons, List.map_cons, joinParas_cons_cons, ← List.map_cons,
        ih', show (g :: g2 :: gs').flatten = g ++ (g2 :: gs').flatten from rfl,
        joinParas_append g ((g2 :: gs').flatten) hg hjoin_ne]

theorem joinParas_ne_nil (g0 : List (List Nat)) (hg0 : g0 ≠ [])
    (hg0e : ∀ g ∈ g0, g ≠ []) : joinParas g0 ≠ [] := by
  obtain ⟨g, gs, h⟩ := List.exists_cons_of_ne_nil hg0
  subst h
  exact joinParas_head_ne_nil g gs (hg0e g (by simp))

theorem splitLoop_factor (m : Int) :
    ∀ (paras chunks : List (List Nat)) (current : List Nat),
      splitLoop m paras chunks current =
        chunks ++ splitLoop m paras [] current := by
  intro paras
  induction paras with
  | nil =>
    intro chunks current
    simp only [splitLoop]
    by_cases h : 0 < current.length <;> simp [h]
  | cons para rest ih =>
    intro chunks current
    simp only [splitLoop]
    by_cases h1 : (current.length : Int) + (para.length : Int) + 2 > m ∧
        0 < current.length
    · simp only [if_pos h1]
      rw [ih (chunks ++ [current]) para, ih ([] ++ [current]) para]
      simp [List.append_assoc]
    · simp only [if_neg h1]
      by_cases h2 : 0 < current.length
      · simp only [if_pos h2]
        rw [ih chunks (current ++ [10, 10] ++ para),
          ih [] (current ++ [10, 10] ++ para)]
      · simp only [if_neg h2]
        rw [ih chunks (current ++ para), ih [] (current ++ para)]

theorem splitLoop_ne_nil (m : Int) :
    ∀ (paras : List (List Nat)) (current : List Nat), current ≠ [] →
      splitLoop m paras [] current ≠ [] := by
  intro paras
  induction paras with
  | nil =>
    intro current hc
    simp only [splitLoop]
    rw [if_pos (List.length_pos.mpr hc)]
    simp
  | cons para rest ih =>
    intro current hc
    have hlen : 0 < current.length := List.length_pos.mpr hc
    simp only [splitLoop]
    by_cases h1 : (current.length : Int) + (para.length : Int) + 2 > m ∧
        0 < current.length
    · rw [if_pos h1, splitLoop_factor]
      simp
    · rw [if_neg h1, if_pos hlen]
      exact ih (current ++ [10, 10] ++ para) (by simp)

theorem splitLoop_groups (m : Int) :
    ∀ (paras : List (List Nat)), (∀ p ∈ paras, p ≠ []) →
    ∀ (g0 : List (List Nat)), g0 ≠ [] → (∀ g ∈ g0, g ≠ []) →
      ∃ groups : List (List (List Nat)),
        (∀ g ∈ groups, g ≠ []) ∧
        groups.flatten = g0 ++ paras ∧
        splitLoop m paras [] (joinParas g0) = groups.map joinParas := by
  intro paras
  induction paras with
  | nil =>
    intro _ g0 hg0 hg0e
    refine ⟨[g0], by simp [hg0], by simp, ?_⟩
    have hne := joinParas_ne_nil g0 hg0 hg0e
    simp only [splitLoop]
    rw [if_pos (List.length_pos.mpr hne)]
    simp
  | cons para rest ih =>
    intro hps g0 hg0 hg0e
    have hpara : para ≠ [] := hps para (by simp)
    have hrest : ∀ p ∈ rest, p ≠ [] :=
      fun p hp => hps p (List.mem_cons_of_mem _ hp)
    have hlen : 0 < (joinParas g0).length :=
      List.length_pos.mpr (joinParas_ne_nil g0 hg0 hg0e)
    simp only [splitLoop]
    by_cases h1 : ((joinParas g0).length : Int) + (para.length : Int) + 2 > m ∧
        0 < (joinParas g0).length
    · rw [if_pos h1, splitLoop_factor]
      obtain ⟨groups', hne', hflat', heq'⟩ :=
        ih hrest [para] (by simp) (by simpa using hpara)
      rw [show joinParas [para] = para from rfl] at heq'
      refine ⟨g0 :: groups', ?_, ?_, ?_⟩
      · intro g hg
        rcases List.mem_cons.mp hg with h | h
        · subst h; exact hg0
        · exact hne' g h
      · simp [hflat']
      · rw [heq']
        simp
    · rw [if_neg h1, if_pos hlen]
      have hcur : joinParas g0 ++ [10, 10] ++ para = joinParas (g0 ++ [para]) := by
        rw [joinParas_append g0 [para] hg0 (by simp)]
        simp [joinParas, List.append_assoc]
      rw [hcur]
      obtain ⟨groups', hne', hflat', heq'⟩ :=
        ih hrest (g0 ++ [para]) (by simp)
          (by
            intro g hg
            rcases List.mem_append.mp hg with h | h
            · exact hg0e g h
            · rw [List.mem_singleton.mp h]; exact hpara)
      refine ⟨groups', hne', ?_, heq'⟩
      rw [hflat']
      simp [List.append_assoc]

theorem splitLoop_chunk_bound (m : Int) (pset : List (List Nat)) :
    ∀ (paras : List (List Nat)) (current : List Nat),
      (∀ p ∈ paras, p ∈ pset) →
      (current = [] ∨ (current.length : Int) ≤ m ∨ current ∈ pset) →
      ∀ c ∈ splitLoop m paras [] current,
        (c.length : Int) ≤ m ∨ c ∈ pset := by
  intro paras
  induction paras with
  | nil =>
    intro current _ hinv c hc
    simp only [splitLoop] at hc
    by_cases h : 0 < current.length
    · rw [if_pos h] at hc
      simp only [List.nil_append, List.mem_singleton] at hc
      subst hc
      rcases hinv with h0 | h0 | h0
      · rw [h0] at h; simp at h
      · exact Or.inl h0
      · exact Or.inr h0
    · rw [if_neg h] at hc
      simp at hc
  | cons para rest ih =>
    intro current hpin hinv
    have hpset : para ∈ pset := hpin para (by simp)
    have hrestin : ∀ p ∈ rest, p ∈ pset :=
      fun p hp => hpin p (List.mem_cons_of_mem _ hp)
    simp only [splitLoop]
    by_cases h1 : (current.length : Int) + (para.length : Int) + 2 > m ∧
        0 < current.length
    · rw [if_pos h1]
      intro c hc
      rw [splitLoop_factor] at hc
      simp only [List.nil_append] at hc
      rcases List.mem_append.mp hc with hc1 | hc2
      · rw [List.mem_singleton.mp hc1]
        rcases hinv with h0 | h0 | h0
        · rw [h0] at h1; simp at h1
        · exact Or.inl h0
        · exact Or.inr h0
      · exact ih para hrestin (Or.inr (Or.inr hpset)) c hc2
    · rw [if_neg h1]
      by_cases h2 : 0 < current.length
      · rw [if_pos h2]
        have hle : (current.length : Int) + (para.length : Int) + 2 ≤ m := by
          by_contra hgt
          exact h1 ⟨lt_of_not_ge hgt, h2⟩
        intro c hc
        refine ih (current ++ [10, 10] ++ para) hrestin (Or.inr (Or.inl ?_)) c hc
        have : (current ++ [10, 10] ++ para).length =
            current.length + 2 + para.length := by
          simp [List.length_append]
          omega
        rw [this]
        push_cast
        linarith
      · rw [if_neg h2]
        have hcur : current = [] := by
          rcases List.eq_nil_or_concat current with h | ⟨l, a, h⟩
          · exact h
          · exfalso; apply h2; subst h; simp
        subst hcur
        intro c hc
        exact ih ([] ++ para) hrestin (Or.inr (Or.inr (by simpa using hpset))) c hc

theorem translateChunksSeq_all_ok (tc : List Nat → Except String (List Nat))
    (f : List Nat → List Nat) :
    ∀ (chunks : List (List Nat)) (i : Nat),
      (∀ c ∈ chunks, tc c = .ok (f c)) →
      translateChunksSeq tc chunks i =
        (.ok ((chunks.map f).flatten),
         List.intersperse (TrEv.sleepMs 500) (chunks.map TrEv.callChunk)) := by
  intro chunks
  induction chunks with
  | nil => intro i _; simp [translateChunksSeq]
  | cons c rest ih =>
    intro i hall
    have hc : tc c = .ok (f c) := hall c (by simp)
    cases rest with
    | nil => simp [translateChunksSeq, hc, List.intersperse]
    | cons r rs =>
      have hrest := ih (i + 1) (fun q hq => hall q (List.mem_cons_of_mem _ hq))
      simp only [translateChunksSeq, hc, hrest]
      simp [List.intersperse]

/-- The first loop step of `splitTextForTranslation` with an empty builder
never flushes and writes no separator. -/
theorem splitLoop_start (m : Int) (p : List Nat) (ps : List (List Nat)) :
    splitLoop m (p :: ps) [] [] = splitLoop m ps [] p := by
  simp only [splitLoop]
  norm_num

/-- C10 as stated fails: for the byte string `"aaaaaa\n\n"` and the positive
cap 5, the trailing empty paragraph is dropped, so rejoining the chunks with
`"\n\n"` does not restore the original text. -/
theorem C10_rejoin_counterexample :
    joinParas (splitTextForTranslation [97, 97, 97, 97, 97, 97, 10, 10] 5) ≠
      [97, 97, 97, 97, 97, 97, 10, 10] ∧
    splitTextForTranslation [97, 97, 97, 97, 97, 97, 10, 10] 5 =
      [[97, 97, 97, 97, 97, 97]] ∧ (0 : Int) < 5 := by
  refine ⟨?_, by decide, by decide⟩
  decide

/-- C10 amended: joining the chunks of `splitTextForTranslation` with
`"\n\n"` restores the original text exactly, provided every
`"\n\n"`-separated paragraph of the text is nonempty (no leading or trailing
separator and no adjacent separators); an empty paragraph that lands at a
chunk boundary is dropped, as the counterexample shows. -/
theorem C10_chunks_rejoin (text : List Nat) (maxSize : Int)
    (h : ∀ p ∈ splitParas text, p ≠ []) :
    joinParas (splitTextForTranslation text maxSize) = text := by
  unfold splitTextForTranslation
  by_cases hlen : (text.length : Int) ≤ maxSize
  · rw [if_pos hlen]
    rfl
  · rw [if_neg hlen]
    obtain ⟨p, ps, hps⟩ := List.exists_cons_of_ne_nil (splitParas_ne_nil text)
    have hp : p ≠ [] := h p (by rw [hps]; simp)
    have hrest : ∀ q ∈ ps, q ≠ [] :=
      fun q hq => h q (by rw [hps]; exact List.mem_cons_of_mem _ hq)
    rw [hps, splitLoop_start]
    obtain ⟨groups, hgne, hflat, heq⟩ :=
      splitLoop_groups maxSize ps hrest [p] (by simp) (by simpa using hp)
    rw [show joinParas [p] = p from rfl] at heq
    rw [heq, joinParas_map_join groups hgne, hflat,
      show [p] ++ ps = p :: ps from rfl, ← hps, joinParas_splitParas]

theorem C10_chunks_rejoin_witness :
    joinParas (splitTextForTranslation [97, 10, 10, 98] 2) =
      [97, 10, 10, 98] :=
  C10_chunks_rejoin [97, 10, 10, 98] 2 (by decide)

/-- C5 as stated fails: a text that is a single 6-byte paragraph with cap 5
is returned as one chunk of length 6, exceeding the cap. -/
theorem C5_chunk_cap_counterexample :
    ¬ (∀ c ∈ splitTextForTranslation [97, 97, 97, 97, 97, 97] 5,
        (c.length : Int) ≤ 5) := by
  decide

/-- C5 amended: (1) every chunk of `splitTextForTranslation` is within the
cap, or is a single paragraph of the text (one that itself exceeds the cap);
(2) the splitter cuts only at `"\n\n"` boundaries: when no paragraph of the
text is empty, the chunks are exactly the `"\n\n"`-joins of a partition of
the text's paragraph sequence into nonempty consecutive groups; (3) on the
long-text path, `Translator.Translate` calls the chunk translator on each
chunk sequentially in order with a fixed 500 ms sleep between consecutive
chunks, and returns the translations concatenated in chunk order. -/
theorem C5_chunking_and_translate :
    (∀ (text : List Nat) (maxSize : Int),
      ∀ c ∈ splitTextForTranslation text maxSize,
        (c.length : Int) ≤ maxSize ∨ c ∈ splitParas text) ∧
    (∀ (text : List Nat) (maxSize : Int),
      (∀ p ∈ splitParas text, p ≠ []) →
      ∃ groups : List (List (List Nat)),
        (∀ g ∈ groups, g ≠ []) ∧
        groups.flatten = splitParas text ∧
        splitTextForTranslation text maxSize = groups.map joinParas) ∧
    (∀ (t : Translator) (detect : List Nat → String)
        (tc : List Nat → Except String (List Nat))
        (f : List Nat → List Nat) (text : List Nat),
      detect text ≠ t.targetLang → (text.length : Int) > 500 →
      (∀ c ∈ splitTextForTranslation text 500, tc c = .ok (f c)) →
      Translator.Translate t detect tc text =
        (.ok (((splitTextForTranslation text 500).map f).flatten),
         List.intersperse (TrEv.sleepMs 500)
           ((splitTextForTranslation text 500).map TrEv.callChunk))) := by
  refine ⟨?_, ?_, ?_⟩
  · intro text maxSize c hc
    unfold splitTextForTranslation at hc
    by_cases hlen : (text.length : Int) ≤ maxSize
    · rw [if_pos hlen] at hc
      rw [List.mem_singleton.mp hc]
      exact Or.inl hlen
    · rw [if_neg hlen] at hc
      obtain ⟨p, ps, hps⟩ := List.exists_cons_of_ne_nil (splitParas_ne_nil text)
      rw [hps, splitLoop_start] at hc
      refine splitLoop_chunk_bound maxSize (splitParas text) ps p ?_ ?_ c hc
      · intro q hq
        rw [hps]
        exact List.mem_cons_of_mem _ hq
      · exact Or.inr (Or.inr (by rw [hps]; simp))
  · intro text maxSize h
    unfold splitTextForTranslation
    by_cases hlen : (text.length : Int) ≤ maxSize
    · rw [if_pos hlen]
      refine ⟨[splitParas text], by simp [splitParas_ne_nil], by simp, ?_⟩
      simp [joinParas_splitParas]
    · rw [if_neg hlen]
      obtain ⟨p, ps, hps⟩ := List.exists_cons_of_ne_nil (splitParas_ne_nil text)
      have hp : p ≠ [] := h p (by rw [hps]; simp)
      have hrest : ∀ q ∈ ps, q ≠ [] :=
        fun q hq => h q (by rw [hps]; exact List.mem_cons_of_mem _ hq)
      rw [hps, splitLoop_start]
      obtain ⟨groups, hgne, hflat, heq⟩ :=
        splitLoop_groups maxSize ps hrest [p] (by simp) (by simpa using hp)
      rw [show joinParas [p] = p from rfl] at heq
      exact ⟨groups, hgne, by rw [hflat, List.singleton_append, ← hps], heq⟩
  · intro t detect tc f text hdet hlen hall
    unfold Translator.Translate
    rw [if_neg hdet, if_neg (not_le.mpr hlen)]
    exact translateChunksSeq_all_ok tc f (splitTextForTranslation text 500) 0 hall

theorem C5_chunking_and_translate_witness :
    Translator.Translate ⟨lingvaInstances, "ru"⟩ (fun _ => "en")
        (fun c => .ok c) c5TextEx =
      (.ok (((splitTextForTranslation c5TextEx 500).map id).flatten),
       List.intersperse (TrEv.sleepMs 500)
         ((splitTextForTranslation c5TextEx 500).map TrEv.callChunk)) :=
  C5_chunking_and_translate.2.2 ⟨lingvaInstances, "ru"⟩ (fun _ => "en")
    (fun c => .ok c) id c5TextEx (by decide)
    (by norm_num [c5TextEx]) (fun c _ => rfl)

theorem voFinish_method (env : VoEnv) (method fp : String) (dur : Int) :
    (voFinish env method fp dur).method = some method := by
  unfold voFinish
  cases h : env.save with
  | error e => rfl
  | ok created => cases created <;> rfl

/-- C2 as stated fails: with a probed track list containing an exact match
for the target language but a failing dubbed-track download, a short source
is acquired through the external tool (`vot-cli`), not the dubbed path —
the committed method is not a function of track availability and duration
alone. -/
theorem C2_method_counterexample :
    (VoiceoverService.FindDubbedTrack ⟨"/tmp/out", "ru", ""⟩
      [⟨"251-9", "ru", "webm", 128⟩]).isSome = true ∧
    processVoiceover ⟨"/tmp/out", "ru", ""⟩
      { checkProcessedFound := false
      , getInfo := .ok ⟨"dQw4w9WgXcQ", "Title", "", "Up", "cid", "curl",
          100, "", "", ""⟩
      , getDubbedAudioTracks := .ok [⟨"251-9", "ru", "webm", 128⟩]
      , downloadDubbedTrack := .error "yt-dlp download failed: exit status 1"
      , translateVideo := .ok "/tmp/out/vo_x.mp3"
      , subtitlesVoiceover := .error "unused"
      , fileDuration := fun _ => 0
      , save := .ok true } =
      { outcome := .added "vot-cli" "/tmp/out/vo_x.mp3" 0
      , method := some "vot-cli" } := by
  constructor
  · decide
  · rfl

/-- C2 amended: after a successful dedup check and metadata fetch, with a
successfully probed track list, the committed acquisition method is:
`youtube-dubbed` when a track matches the target language AND its download
succeeds, regardless of duration; otherwise (no matching track, or the
dubbed download failed) `subtitles-tts` when the source duration exceeds 4
hours (14400 s) and the subtitles path succeeds, and `vot-cli` when the
duration is at most 4 hours and the external tool succeeds. -/
theorem C2_method_selection (v : VoiceoverService) (env : VoEnv)
    (info : VideoInfo) (ts : List AudioTrack)
    (hcp : env.checkProcessedFound = false)
    (hinfo : env.getInfo = .ok info)
    (hts : env.getDubbedAudioTracks = .ok ts) :
    ((VoiceoverService.FindDubbedTrack v ts).isSome = true →
      ∀ fp, env.downloadDubbedTrack = .ok fp →
        (processVoiceover v env).method = some "youtube-dubbed") ∧
    (((VoiceoverService.FindDubbedTrack v ts).isSome = false ∨
        (∃ e, env.downloadDubbedTrack = .error e)) →
      info.Duration > 14400 →
      ∀ fp dur, env.subtitlesVoiceover = .ok (fp, dur) →
        (processVoiceover v env).method = some "subtitles-tts") ∧
    (((VoiceoverService.FindDubbedTrack v ts).isSome = false ∨
        (∃ e, env.downloadDubbedTrack = .error e)) →
      ¬(info.Duration > 14400) →
      ∀ fp, env.translateVideo = .ok fp →
        (processVoiceover v env).method = some "vot-cli") := by
  refine ⟨?_, ?_, ?_⟩
  · intro hmatch fp hdl
    simp [processVoiceover, hcp, hinfo, hts, hmatch, hdl, voFinish_method]
  · intro hno hdur fp dur hsub
    rcases hno with h | ⟨e, he⟩
    · simp [processVoiceover, hcp, hinfo, hts, h, hdur, hsub, voFinish_method]
    · by_cases hm : (VoiceoverService.FindDubbedTrack v ts).isSome = true
      · simp [processVoiceover, hcp, hinfo, hts, hm, he, hdur, hsub,
          voFinish_method]
      · simp [processVoiceover, hcp, hinfo, hts, hm, hdur, hsub,
          voFinish_method]
  · intro hno hdur fp htv
    rcases hno with h | ⟨e, he⟩
    · simp [processVoiceover, hcp, hinfo, hts, h, hdur, htv, voFinish_method]
    · by_cases hm : (VoiceoverService.FindDubbedTrack v ts).isSome = true
      · simp [processVoiceover, hcp, hinfo, hts, hm, he, hdur, htv,
          voFinish_method]
      · simp [processVoiceover, hcp, hinfo, hts, hm, hdur, htv,
          voFinish_method]

theorem C2_method_selection_witness :
    (processVoiceover ⟨"/tmp/out", "ru", ""⟩
      { checkProcessedFound := false
      , getInfo := .ok ⟨"dQw4w9WgXcQ", "Title", "", "Up", "cid", "curl",
          100000, "", "", ""⟩
      , getDubbedAudioTracks := .ok [⟨"251-9", "ru-RU", "webm", 128⟩]
      , downloadDubbedTrack := .ok "/tmp/out/vo_dub.mp3"
      , translateVideo := .error "unused"
      , subtitlesVoiceover := .error "unused"
      , fileDuration := fun _ => 0
      , save := .ok true }).method = some "youtube-dubbed" :=
  (C2_method_selection ⟨"/tmp/out", "ru", ""⟩ _
    ⟨"dQw4w9WgXcQ", "Title", "", "Up", "cid", "curl", 100000, "", "", ""⟩
    [⟨"251-9", "ru-RU", "webm", 128⟩] rfl rfl rfl).1
    (by decide) "/tmp/out/vo_dub.mp3" rfl

theorem sha1_length (msg : List Nat) : (sha1 msg).length = 20 := by
  simp [sha1, be32]

set_option maxRecDepth 8000 in
/-- SHA-1 test vectors (FIPS 180-1): the embedding computes the standard
digests. -/
theorem sha1_test_vectors :
    String.mk (bytesToHex (sha1 (utf8Bytes "abc"))) =
      "a9993e364706816aba3e25717850c26c9cd0d89d" ∧
    String.mk (bytesToHex (sha1 (utf8Bytes ""))) =
      "da39a3ee5e6b4b0d3255bfef95601890afd80709" := by
  constructor <;> decide

theorem bytesToHex_length (bs : List Nat) :
    (bytesToHex bs).length = 2 * bs.length := by
  induction bs with
  | nil => rfl
  | cons b rest ih =>
    simp [bytesToHex] at ih ⊢
    omega

theorem makeArticleID_toList (url : String) :
    (makeArticleID url).toList =
      ("art_".toList ++
        bytesToHex (sha1 (utf8Bytes ("article::" ++ url)))).take 16 := rfl

theorem makeArticleID_length (url : String) :
    (makeArticleID url).length = 16 := by
  have h : ("art_".toList ++
      bytesToHex (sha1 (utf8Bytes ("article::" ++ url)))).length = 44 := by
    rw [List.length_append, bytesToHex_length, sha1_length]
    rfl
  show (makeArticleID url).toList.length = 16
  rw [makeArticleID_toList, List.length_take, h]
  omega

theorem ytMatchAt_length (lit text cap : List Char)
    (h : ytMatchAt lit text = some cap) : cap.length = 11 := by
  unfold ytMatchAt at h
  by_cases hp : lit.isPrefixOf text = true
  · rw [if_pos hp] at h
    by_cases hc : ((text.drop lit.length).take 11).length = 11 ∧
        ((text.drop lit.length).take 11).all ytIDChar = true
    · rw [if_pos hc] at h
      cases h
      exact hc.1
    · rw [if_neg hc] at h
      cases h
  · rw [if_neg hp] at h
    cases h

theorem ytFindCapture_length (lit : List Char) :
    ∀ (text cap : List Char), ytFindCapture lit text = some cap →
      cap.length = 11 := by
  intro text
  induction text with
  | nil =>
    intro cap h
    exact ytMatchAt_length lit [] cap h
  | cons c rest ih =>
    intro cap h
    unfold ytFindCapture at h
    cases hm : ytMatchAt lit (c :: rest) with
    | some found =>
      rw [hm] at h
      injection h with h2
      rw [← h2]
      exact ytMatchAt_length lit (c :: rest) found hm
    | none =>
      rw [hm] at h
      exact ih cap h

theorem extractYouTubeVideoID_length (text : String)
    (h : extractYouTubeVideoID text ≠ "") :
    (extractYouTubeVideoID text).length = 11 := by
  unfold extractYouTubeVideoID at h ⊢
  cases h1 : ytFindCapture "youtube.com/watch?v=".toList text.toList with
  | some cap =>
    simp only [h1]
    exact ytFindCapture_length _ _ _ h1
  | none =>
    simp only [h1]
    rw [h1] at h
    cases h2 : ytFindCapture "youtu.be/".toList text.toList with
    | some cap =>
      simp only [h2]
      exact ytFindCapture_length _ _ _ h2
    | none =>
      simp only [h2]
      rw [h2] at h
      cases h3 : ytFindCapture "youtube.com/embed/".toList text.toList with
      | some cap =>
        simp only [h3]
        exact ytFindCapture_length _ _ _ h3
      | none =>
        simp only [h3]
        rw [h3] at h
        cases h4 : ytFindCapture "youtube.com/v/".toList text.toList with
        | some cap =>
          simp only [h4]
          exact ytFindCapture_length _ _ _ h4
        | none =>
          rw [h4] at h
          simp at h

theorem string_length_ne {s t : String} (h : s.length ≠ t.length) : s ≠ t :=
  fun he => h (he ▸ rfl)

/-- C9: the resource-ID namespaces of the three pipelines are pairwise
disjoint.  `makeArticleID` always returns a 16-character string beginning
with `"art_"`; a nonempty `extractYouTubeVideoID` result has 11 characters;
a voiceover ID is `"vo_"` plus an 11-character video ID (14 characters) —
so an article ID never equals a video ID or a voiceover ID, and a video ID
never equals a voiceover ID, even when derived from the same source
string. -/
theorem C9_id_namespaces (url text : String) :
    (makeArticleID url).length = 16 ∧
    goHasPrefix (makeArticleID url) "art_" = true ∧
    (extractYouTubeVideoID text ≠ "" →
      (extractYouTubeVideoID text).length = 11) ∧
    makeArticleID url ≠ extractYouTubeVideoID text ∧
    (extractYouTubeVideoID text ≠ "" →
      makeArticleID url ≠ voiceoverID (extractYouTubeVideoID text) ∧
      extractYouTubeVideoID text ≠ voiceoverID (extractYouTubeVideoID text)) := by
  have hart := makeArticleID_length url
  refine ⟨hart, ?_, extractYouTubeVideoID_length text, ?_, ?_⟩
  · unfold goHasPrefix
    rw [makeArticleID_toList]
    have : ("art_".toList ++
        bytesToHex (sha1 (utf8Bytes ("article::" ++ url)))).take 16 =
        "art_".toList ++
          (bytesToHex (sha1 (utf8Bytes ("article::" ++ url)))).take 12 := by
      rw [List.take_append_eq_append_take]
      norm_num
    rw [this]
    exact List.isPrefixOf_iff_prefix.mpr (List.prefix_append _ _)
  · apply string_length_ne
    rw [hart]
    by_cases h : extractYouTubeVideoID text = ""
    · rw [h]
      decide
    · rw [extractYouTubeVideoID_length text h]
      decide
  · intro h
    have hv := extractYouTubeVideoID_length text h
    have hvo : (voiceoverID (extractYouTubeVideoID text)).length = 14 := by
      show ("vo_" ++ extractYouTubeVideoID text).length = 14
      rw [String.length_append, hv]
      decide
    constructor
    · apply string_length_ne
      rw [hart, hvo]
      decide
    · apply string_length_ne
      rw [hv, hvo]
      decide

theorem C9_id_namespaces_witness :
    extractYouTubeVideoID "https://www.youtube.com/watch?v=dQw4w9WgXcQ" ≠ "" ∧
    (makeArticleID "https://example.com/post").length = 16 ∧
    makeArticleID "https://example.com/post" ≠
      voiceoverID
        (extractYouTubeVideoID "https://www.youtube.com/watch?v=dQw4w9WgXcQ") := by
  have hne : extractYouTubeVideoID
      "https://www.youtube.com/watch?v=dQw4w9WgXcQ" ≠ "" := by decide
  have h := C9_id_namespaces "https://example.com/post"
    "https://www.youtube.com/watch?v=dQw4w9WgXcQ"
  exact ⟨hne, h.1, (h.2.2.2.2 hne).1⟩

/-- C6 as stated fails: an unauthorized `/list` is rejected silently — the
handler returns without sending the fixed denial message (it does start no
pipeline and performs no store access). -/
theorem C6_denial_counterexample :
    TelegramBot.handleList ⟨42, "manual", 100, true⟩ ⟨.ok []⟩
      ⟨some ⟨7⟩, "/list"⟩ = [] ∧
    Ev.send Msg.unauthorized ∉
      TelegramBot.handleList ⟨42, "manual", 100, true⟩ ⟨.ok []⟩
        ⟨some ⟨7⟩, "/list"⟩ := by
  constructor
  · rfl
  · simp [TelegramBot.handleList, TelegramBot.isAuthorized]

/-- C6 amended: for every inbound message whose sender ID differs from the
configured `AllowedUserID`, the text handler replies with the fixed denial
message — except that for a nil sender it panics on the `m.Sender.ID`
dereference in its log call before sending anything; `/help` replies with
the fixed denial for nil and wrong-ID senders alike, while `/list`,
`/history`, `/del` and `/vo` return silently without any reply; in every
case no pipeline is started and no store read or mutation is performed (no
effectful event at all). -/
theorem C6_unauthorized_rejection (t : TelegramBot) (m : TbMessage)
    (textEnv : TextEnv) (listEnv histEnv : ListEnv) (delEnv : DelEnv)
    (voEnv : VoCmdEnv)
    (hm : t.isAuthorized m.sender = false) :
    (∀ u, m.sender = some u →
      TelegramBot.handleText t textEnv m = .ok [.send .unauthorized]) ∧
    (m.sender = none →
      TelegramBot.handleText t textEnv m = .panicked []) ∧
    TelegramBot.handleHelp t m = [.send .unauthorized] ∧
    TelegramBot.handleList t listEnv m = [] ∧
    TelegramBot.handleHistory t histEnv m = [] ∧
    TelegramBot.handleDelete t delEnv m = [] ∧
    TelegramBot.handleVoiceover t voEnv m = [] ∧
    (∀ ev,
      ev ∈ (TelegramBot.handleText t textEnv m).events ∨
        ev ∈ TelegramBot.handleHelp t m ∨
        ev ∈ TelegramBot.handleList t listEnv m ∨
        ev ∈ TelegramBot.handleHistory t histEnv m ∨
        ev ∈ TelegramBot.handleDelete t delEnv m ∨
        ev ∈ TelegramBot.handleVoiceover t voEnv m →
      ev.isEffect = false) := by
  have h1 : ∀ u, m.sender = some u →
      TelegramBot.handleText t textEnv m = .ok [.send .unauthorized] := by
    intro u hu
    rw [hu] at hm
    simp [TelegramBot.handleText, hu, hm]
  have h1n : m.sender = none →
      TelegramBot.handleText t textEnv m = .panicked [] := by
    intro hu
    simp [TelegramBot.handleText, TelegramBot.isAuthorized, hu]
  have h2 : TelegramBot.handleHelp t m = [.send .unauthorized] := by
    simp [TelegramBot.handleHelp, hm]
  have h3 : TelegramBot.handleList t listEnv m = [] := by
    simp [TelegramBot.handleList, hm]
  have h4 : TelegramBot.handleHistory t histEnv m = [] := by
    simp [TelegramBot.handleHistory, hm]
  have h5 : TelegramBot.handleDelete t delEnv m = [] := by
    simp [TelegramBot.handleDelete, hm]
  have h6 : TelegramBot.handleVoiceover t voEnv m = [] := by
    simp [TelegramBot.handleVoiceover, hm]
  refine ⟨h1, h1n, h2, h3, h4, h5, h6, ?_⟩
  intro ev hev
  rcases hev with h | h | h | h | h | h
  · cases hs : m.sender with
    | none =>
      rw [h1n hs] at h
      cases h
    | some u =>
      rw [h1 u hs] at h
      rw [List.mem_singleton.mp h]
      rfl
  · rw [h2] at h
    rw [List.mem_singleton.mp h]
    rfl
  · rw [h3] at h; cases h
  · rw [h4] at h; cases h
  · rw [h5] at h; cases h
  · rw [h6] at h; cases h

theorem C6_unauthorized_rejection_witness :
    TelegramBot.handleText ⟨42, "manual", 100, true⟩ ⟨"", false⟩
      ⟨some ⟨7⟩, "/del"⟩ = .ok [.send .unauthorized] ∧
    TelegramBot.handleText ⟨42, "manual", 100, true⟩ ⟨"", false⟩
      ⟨none, "/del"⟩ = .panicked [] ∧
    TelegramBot.handleDelete ⟨42, "manual", 100, true⟩
      ⟨.ok [], none, none, none, .ok []⟩ ⟨some ⟨7⟩, "/del"⟩ = [] := by
  have h := C6_unauthorized_rejection ⟨42, "manual", 100, true⟩
    ⟨some ⟨7⟩, "/del"⟩ ⟨"", false⟩ ⟨.ok []⟩ ⟨.ok []⟩
    ⟨.ok [], none, none, none, .ok []⟩ ⟨true⟩ (by decide)
  have hn := C6_unauthorized_rejection ⟨42, "manual", 100, true⟩
    ⟨none, "/del"⟩ ⟨"", false⟩ ⟨.ok []⟩ ⟨.ok []⟩
    ⟨.ok [], none, none, none, .ok []⟩ ⟨true⟩ (by decide)
  exact ⟨h.1 ⟨7⟩ rfl, hn.2.1 rfl, h.2.2.2.2.2.1⟩

theorem removeOldEntriesTrace_count_adapterGet (t : TelegramBot)
    (r : Except String (List String)) :
    (removeOldEntriesTrace t r).count PEv.adapterGet = 0 := by
  unfold removeOldEntriesTrace
  by_cases h : t.MaxItems ≤ 0
  · simp [h]
  · rw [if_neg h]
    cases r with
    | error e => simp
    | ok files =>
      have hnot : PEv.adapterGet ∉ List.map PEv.fileRemove files := by
        intro hmem
        rcases List.mem_map.mp hmem with ⟨f, _, hf⟩
        cases hf
      simp [List.count_cons, List.count_eq_zero.mpr hnot,
        show (PEv.storeRemoveOld == PEv.adapterGet) = false from rfl]

/-- C7: in `processVideo`, the dedup check (`CheckProcessed`) is performed
before any acquisition work: whenever the download (`Downloader.Get`) is
invoked, the trace begins with exactly the status edit, the metadata fetch,
the dedup check, another status edit, and only then the download; the
download is invoked at most once; and when the processed marker is found the
run stops right after the check with the already-exists success and performs
no download, no save, no eviction. -/
theorem C7_dedup_before_acquisition (t : TelegramBot) (env : PvEnv)
    (videoID : String) :
    (PEv.adapterGet ∈ (processVideo t env videoID).2 →
      (processVideo t env videoID).2.take 5 =
        [.editStatus, .adapterGetInfo, .storeCheckProcessed, .editStatus,
         .adapterGet]) ∧
    (processVideo t env videoID).2.count PEv.adapterGet ≤ 1 ∧
    (env.checkProcessedFound = true →
      ∀ info, env.getInfo = .ok info →
        processVideo t env videoID =
          (.alreadyInFeed,
           [.editStatus, .adapterGetInfo, .storeCheckProcessed, .editStatus,
            .scheduleDeleteOriginal])) := by
  cases hinfo : env.getInfo with
  | error e =>
    refine ⟨?_, ?_, ?_⟩
    · intro hmem
      simp [processVideo, hinfo] at hmem
    · simp [processVideo, hinfo]
    · intro _ info hok
      exact absurd hok (by simp)
  | ok info =>
    by_cases hcp : env.checkProcessedFound
    · refine ⟨?_, ?_, ?_⟩
      · intro hmem
        simp [processVideo, hinfo, hcp] at hmem
      · simp [processVideo, hinfo, hcp]
      · intro _ info' hok
        simp [processVideo, hinfo, hcp]
    · cases hget : env.get with
      | error e =>
        refine ⟨?_, ?_, ?_⟩
        · intro _
          simp [processVideo, hinfo, hcp, hget]
        · simp [processVideo, hinfo, hcp, hget]
        · intro hfound
          exact absurd hfound hcp
      | ok file =>
        cases hsave : env.save with
        | error e =>
          refine ⟨?_, ?_, ?_⟩
          · intro _
            simp [processVideo, hinfo, hcp, hget, hsave]
          · simp [processVideo, hinfo, hcp, hget, hsave]
          · intro hfound
            exact absurd hfound hcp
        | ok created =>
          cases created with
          | false =>
            refine ⟨?_, ?_, ?_⟩
            · intro _
              simp [processVideo, hinfo, hcp, hget, hsave]
            · simp [processVideo, hinfo, hcp, hget, hsave]
            · intro hfound
              exact absurd hfound hcp
          | true =>
            refine ⟨?_, ?_, ?_⟩
            · intro _
              simp only [processVideo, hinfo, hcp, hget, hsave]
              rfl
            · simp only [processVideo, hinfo, hcp, hget, hsave,
                List.count_append, removeOldEntriesTrace_count_adapterGet]
              simp
              exact removeOldEntriesTrace_count_adapterGet t env.removeOld
            · intro hfound
              exact absurd hfound hcp

theorem C7_dedup_before_acquisition_witness :
    ((processVideo ⟨42, "manual", 100, true⟩
        { getInfo := .ok ⟨"dQw4w9WgXcQ", "Title", "", "Up", "cid", "curl",
            300, "", "20240101", "https://www.youtube.com/watch?v=dQw4w9WgXcQ"⟩
        , checkProcessedFound := true
        , get := .ok "/srv/var/yt/a.mp3"
        , fileDuration := fun _ => 0
        , save := .ok true
        , removeOld := .ok [] } "dQw4w9WgXcQ").1 = .alreadyInFeed) ∧
    PEv.adapterGet ∉
      (processVideo ⟨42, "manual", 100, true⟩
        { getInfo := .ok ⟨"dQw4w9WgXcQ", "Title", "", "Up", "cid", "curl",
            300, "", "20240101", "https://www.youtube.com/watch?v=dQw4w9WgXcQ"⟩
        , checkProcessedFound := true
        , get := .ok "/srv/var/yt/a.mp3"
        , fileDuration := fun _ => 0
        , save := .ok true
        , removeOld := .ok [] } "dQw4w9WgXcQ").2 := by
  have h := (C7_dedup_before_acquisition ⟨42, "manual", 100, true⟩
    { getInfo := .ok ⟨"dQw4w9WgXcQ", "Title", "", "Up", "cid", "curl",
        300, "", "20240101", "https://www.youtube.com/watch?v=dQw4w9WgXcQ"⟩
    , checkProcessedFound := true
    , get := .ok "/srv/var/yt/a.mp3"
    , fileDuration := fun _ => 0
    , save := .ok true
    , removeOld := .ok [] } "dQw4w9WgXcQ").2.2 rfl
    ⟨"dQw4w9WgXcQ", "Title", "", "Up", "cid", "curl", 300, "", "20240101",
      "https://www.youtube.com/watch?v=dQw4w9WgXcQ"⟩ rfl
  rw [h]
  constructor
  · rfl
  · simp

theorem C8_order_counterexample :
    (TelegramBot.handleDelete ⟨42, "manual", 100, true⟩
        ⟨.ok [c8Entry], none, none, none, .ok []⟩
        ⟨some ⟨42⟩, "/del"⟩).get? 1 =
      some (.fileRemove "/srv/var/yt/a.mp3") ∧
    (TelegramBot.handleDelete ⟨42, "manual", 100, true⟩
        ⟨.ok [c8Entry], none, none, none, .ok []⟩
        ⟨some ⟨42⟩, "/del"⟩).get? 2 =
      some (.storeRemoveEntry c8Entry) ∧
    ¬ (∀ i j,
        (TelegramBot.handleDelete ⟨42, "manual", 100, true⟩
            ⟨.ok [c8Entry], none, none, none, .ok []⟩
            ⟨some ⟨42⟩, "/del"⟩).get? i =
          some (.fileRemove "/srv/var/yt/a.mp3") →
        (TelegramBot.handleDelete ⟨42, "manual", 100, true⟩
            ⟨.ok [c8Entry], none, none, none, .ok []⟩
            ⟨some ⟨42⟩, "/del"⟩).get? j =
          some (.storeRemoveEntry c8Entry) → j < i) := by
  refine ⟨by decide, by decide, fun h => ?_⟩
  have := h 1 2 (by decide) (by decide)
  omega

/-- C8 amended: on a manual delete the best-effort filesystem deletion of
the entry's backing file happens BEFORE the store mutation (removing the
Entry row); a failure of the file deletion changes nothing about the rest of
the operation (it is only logged); when the store removal succeeds the
entry's ProcessedMarker is reset, after the removal, so the same resource
can be resubmitted, and no deletion error is reported. -/
theorem C8_delete_order (t : TelegramBot) (env : DelEnv) (m : TbMessage)
    (idx : Int) (entries : List Entry)
    (hauth : t.isAuthorized m.sender = true)
    (hidx : parseDelArg m.text = some idx)
    (hload : env.load = .ok entries)
    (hne : entries.length ≠ 0)
    (hle : ¬ ((entries.length : Int) < idx))
    (hfile : (delTarget entries idx).File ≠ "") :
    (∃ i j, i < j ∧
      (TelegramBot.handleDelete t env m).get? i =
        some (.fileRemove (delTarget entries idx).File) ∧
      (TelegramBot.handleDelete t env m).get? j =
        some (.storeRemoveEntry (delTarget entries idx))) ∧
    (∀ e', TelegramBot.handleDelete t { env with fileRemoveErr := e' } m =
      TelegramBot.handleDelete t env m) ∧
    (env.removeErr = none →
      ∃ j k, j < k ∧
        (TelegramBot.handleDelete t env m).get? j =
          some (.storeRemoveEntry (delTarget entries idx)) ∧
        (TelegramBot.handleDelete t env m).get? k =
          some (.storeResetProcessed (delTarget entries idx))) ∧
    (env.removeErr = none →
      ∀ e, Ev.send (.errorRemoving e) ∉ TelegramBot.handleDelete t env m) := by
  have htr : TelegramBot.handleDelete t env m =
      Ev.storeLoad t.FeedName t.MaxItems ::
        Ev.fileRemove (delTarget entries idx).File ::
          Ev.storeRemoveEntry (delTarget entries idx) ::
            (match env.removeErr with
             | some e => [.send (.errorRemoving e)]
             | none =>
               Ev.storeResetProcessed (delTarget entries idx) ::
                 Ev.storeLoad t.FeedName 10 ::
                   (match env.load2 with
                    | .error e =>
                      [.send (.deletedKeepListErr (delTarget entries idx).Title e)]
                    | .ok updated =>
                      [.send (.deleted (delTarget entries idx).Title updated)])) := by
    simp [TelegramBot.handleDelete, hauth, hidx, hload, hne, hle, hfile]
  refine ⟨⟨1, 2, by omega, by rw [htr]; rfl, by rw [htr]; rfl⟩, ?_, ?_, ?_⟩
  · intro e'
    rfl
  · intro hrem
    refine ⟨2, 3, by omega, by rw [htr]; rfl, ?_⟩
    rw [htr, hrem]
    rfl
  · intro hrem e
    rw [htr, hrem]
    cases hl2 : env.load2 with
    | error e2 => simp
    | ok updated => simp

theorem C8_delete_order_witness :
    ∃ i j, i < j ∧
      (TelegramBot.handleDelete ⟨42, "manual", 100, true⟩
          ⟨.ok [c8Entry], none, none, none, .ok []⟩
          ⟨some ⟨42⟩, "/del"⟩).get? i =
        some (.fileRemove (delTarget [c8Entry] 1).File) ∧
      (TelegramBot.handleDelete ⟨42, "manual", 100, true⟩
          ⟨.ok [c8Entry], none, none, none, .ok []⟩
          ⟨some ⟨42⟩, "/del"⟩).get? j =
        some (.storeRemoveEntry (delTarget [c8Entry] 1)) :=
  (C8_delete_order ⟨42, "manual", 100, true⟩
    ⟨.ok [c8Entry], none, none, none, .ok []⟩ ⟨some ⟨42⟩, "/del"⟩ 1 [c8Entry]
    (by decide) (by decide) rfl (by decide) (by decide) (by decide)).1

end Turnip

